import Mathlib

/-!
The configuration engine's C boundary and the solver stubs: a shallow embedding of

* `config_src/config/cfunctions.c` / `cfunctions.h`: the C-callable functions that
  forward each operation to an OCaml callback registered by name,
* `config_src/3rdparty/camlmsat/camlmsat_stubs.C`: the OCaml stubs around the SAT solver,
* the cursor state machine of the engine, which the boundary only forwards to.

C state (the logger pointer, standard output, the engine behind the callbacks) is passed
explicitly; a C function returns the new state together with its result.
-/

namespace Cfunctions

/-! ## Constants of `cfunctions.h` and `cfunctions.c` -/

def STATUS_OK : Int := 0
def STATUS_ERROR : Int := -1

def SEV_DEBUG : Int := 10
/-- An exception bucket `ex`, by the two reads the C code makes of it: `Field(ex,0)`, the
exception constructor, which C compares by identity with a registered named value, and
`String_val(Field(ex,1))`, the string argument the C code reads once the constructor is one of
the two registered ones. -/
structure Exn where
  ctor : Nat
  arg : String
deriving DecidableEq, Repr

/-- The result word of `caml_callback_exn` / `caml_callback2_exn`: a value, or an exception
bucket encoded in the word (`Is_exception_result`, `Extract_exception`). -/
inductive CamlResult (α : Type) where
  | value (v : α)
  | exception (ex : Exn)
deriving DecidableEq, Repr

/-- One call of the registered logger: the function pointer called and its four arguments. -/
structure LogCall where
  fn : Nat
  area : String
  subarea : String
  severity : Int
  msg : String
deriving DecidableEq, Repr

/-- The process state the boundary acts on: the engine behind the callbacks, the static
`logger_fn` (`none` is `NULL`), the bytes written to standard output, and the calls made
through `logger_fn`, oldest first. -/
structure World (σ : Type) where
  engine : σ
  logger_fn : Option Nat
  stdout : String
  logger_calls : List LogCall

/-- A closure registered by the engine. Running it may act on the whole process state: the
engine logs through `c_system_logger` and prints through `c_system_print_string`. -/
abbrev Closure (σ α : Type) := World σ → World σ × CamlResult α

/-- The OCaml side the boundary links against: the values found by `caml_named_value` (two
exception constructors and one closure per operation) and the runtime's
`caml_format_exception`. The engine itself is not among the source files, so it is a
parameter of every boundary function; every name the boundary looks up is taken to be
registered. -/
structure Caml (σ : Type) where
  config_user_error : Nat
  config_sys_error : Nat
  caml_format_exception : Exn → String
  config_init : String → String → Closure σ Unit
  config_has_next : Closure σ Bool
  config_has_prev : Closure σ Bool
  config_next : Closure σ Bool
  config_prev : Closure σ Bool
  config_reinit : Closure σ Unit
  config_get_config_port_types : Closure σ String
  config_get_config_ports : Closure σ String
  config_set_config_ports : String → Closure σ Unit
  config_set_ports : String → String → Closure σ Unit
  config_set_ports_of_current : Closure σ Unit
  config_get_current_resource : Closure σ String
  config_get_resource : String → String → Closure σ String
  config_write_install_file : String → Closure σ Unit

/-- What a boundary function does to its caller: the new process state, and either the value
it returns or the OCaml exception that leaves it unhandled (`caml_callback` re-raises an
exception of the closure through the C frame). -/
abbrev Ret (σ α : Type) := World σ × Except Exn α

/-- Embeds `caml_callback_exn` / `caml_callback2_exn`: run the closure and return its result
word. -/
def caml_callback_exn {σ α : Type} (f : Closure σ α) (w : World σ) : World σ × CamlResult α :=
  f w

/-- Embeds `caml_callback` / `caml_callback2`: run the closure; an exception is raised, not
returned. -/
def caml_callback {σ α : Type} (f : Closure σ α) (w : World σ) : World σ × Except Exn α :=
  match f w with
  | (w1, .value v) => (w1, .ok v)
  | (w1, .exception ex) => (w1, .error ex)

/-- Embeds `Bool_val(ret)` as a C `int`. -/
def Bool_val (b : Bool) : Int := if b then 1 else 0

/-- Embeds `Int_val(v)`: the OCaml integer cast to a 32-bit C `int`. -/
def Int_val (v : Int) : Int := (v + 2 ^ 31) % 2 ^ 32 - 2 ^ 31

/-! ## Standard output and logging -/

/-- Embeds `printf` of an already formatted text: the bytes are appended to standard output.
Strings are C strings, without NUL bytes. -/
def printf {σ : Type} (text : String) (w : World σ) : World σ :=
  { w with stdout := w.stdout ++ text }

/-- Embeds `fflush(stdout)`: no effect on the bytes written. -/
def fflush {σ : Type} (w : World σ) : World σ := w

/-- Embeds `register_logger`. -/
def register_logger {σ : Type} (logger : Option Nat) (w : World σ) : World σ :=
  { w with logger_fn := logger }

/-- The call `(logger_fn)(area, subarea, severity, msg)` through the pointer `fn`. -/
def call_logger {σ : Type} (fn : Nat) (area subarea : String) (severity : Int) (msg : String)
    (w : World σ) : World σ :=
  { w with logger_calls := w.logger_calls ++ [⟨fn, area, subarea, severity, msg⟩] }

/-- Embeds `log_api_call`. -/
def log_api_call {σ : Type} (severity : Int) (msg : String) (w : World σ) : World σ :=
  match w.logger_fn with
  | some fn => call_logger fn "Config" "CAPI" severity msg w
  | none => fflush (printf ("[Config][CAPI][" ++ toString severity ++ "] " ++ msg ++ "\n") w)

/-- Embeds `config_init`. The result is the status code and the final `*errorstr`. -/
def config_init {σ : Type} (E : Caml σ) (rdeffname rinstfname : String)
    (errorstr : Option String) (w : World σ) : Ret σ (Int × Option String) :=
  let retval := STATUS_OK
  let w := log_api_call SEV_DEBUG "entering CAML config_init. Params are:" w
  let w := log_api_call SEV_DEBUG rdeffname w
  let w := log_api_call SEV_DEBUG rinstfname w
  match caml_callback_exn (E.config_init rdeffname rinstfname) w with
  | (w, .exception ex) =>
    let (w, errorstr) :=
      if ex.ctor = E.config_user_error then
        let w := fflush (printf "User exception raised" w)
        let w := printf ("\n" ++ ex.arg ++ "\n") w
        (w, some ex.arg)
      else if ex.ctor = E.config_sys_error then
        let w := fflush (printf "System exception raised" w)
        let w := printf ("\n" ++ ex.arg ++ "\n") w
        (w, some ex.arg)
      else
        let w := printf ("Unknown Exception raised in caml_init: "
          ++ E.caml_format_exception ex ++ "\n") w
        (w, some (E.caml_format_exception ex))
    let w := fflush w
    let retval := STATUS_ERROR
    let w := log_api_call SEV_DEBUG "returning from config_init" w
    (w, .ok (retval, errorstr))
  | (w, .value _) =>
    let w := log_api_call SEV_DEBUG "returning from config_init" w
    (w, .ok (retval, errorstr))

/-- Embeds `config_has_next`. -/
def config_has_next {σ : Type} (E : Caml σ) (w : World σ) : Ret σ Int :=
  match caml_callback E.config_has_next w with
  | (w, .ok ret) => (w, .ok (Bool_val ret))
  | (w, .error ex) => (w, .error ex)

/-- Embeds `config_has_prev`. -/
def config_has_prev {σ : Type} (E : Caml σ) (w : World σ) : Ret σ Int :=
  match caml_callback E.config_has_prev w with
  | (w, .ok ret) => (w, .ok (Bool_val ret))
  | (w, .error ex) => (w, .error ex)

/-- Embeds `config_next`. -/
def config_next {σ : Type} (E : Caml σ) (w : World σ) : Ret σ Int :=
  match caml_callback E.config_next w with
  | (w, .ok ret) => (w, .ok (Bool_val ret))
  | (w, .error ex) => (w, .error ex)

/-- Embeds `config_prev`. -/
def config_prev {σ : Type} (E : Caml σ) (w : World σ) : Ret σ Int :=
  match caml_callback E.config_prev w with
  | (w, .ok ret) => (w, .ok (Bool_val ret))
  | (w, .error ex) => (w, .error ex)

/-- Embeds `config_reinit`. -/
def config_reinit {σ : Type} (E : Caml σ) (w : World σ) : Ret σ Unit :=
  match caml_callback E.config_reinit w with
  | (w, .ok _) => (w, .ok ())
  | (w, .error ex) => (w, .error ex)

/-- Embeds `config_set_ports`. -/
def config_set_ports {σ : Type} (E : Caml σ) (key id : String) (w : World σ) : Ret σ Unit :=
  match caml_callback (E.config_set_ports key id) w with
  | (w, .ok _) => (w, .ok ())
  | (w, .error ex) => (w, .error ex)

/-- Embeds `config_set_ports_of_current`. -/
def config_set_ports_of_current {σ : Type} (E : Caml σ) (w : World σ) : Ret σ Unit :=
  let w := log_api_call SEV_DEBUG "calling OCAML set_ports" w
  match caml_callback E.config_set_ports_of_current w with
  | (w, .ok _) =>
    let w := log_api_call SEV_DEBUG "returned from set_ports" w
    (w, .ok ())
  | (w, .error ex) => (w, .error ex)

/-- Embeds `config_get_current_resource`: the `strdup` copy of the string the closure
returned. -/
def config_get_current_resource {σ : Type} (E : Caml σ) (w : World σ) : Ret σ String :=
  match caml_callback E.config_get_current_resource w with
  | (w, .ok ret) =>
    let res_str := ret
    (w, .ok res_str)
  | (w, .error ex) => (w, .error ex)

/-- Embeds `config_get_resource`: the `strdup` copy of the string the closure returned. -/
def config_get_resource {σ : Type} (E : Caml σ) (key id : String) (w : World σ) :
    Ret σ String :=
  match caml_callback (E.config_get_resource key id) w with
  | (w, .ok ret) =>
    let res_str := ret
    (w, .ok res_str)
  | (w, .error ex) => (w, .error ex)

/-- Embeds `config_write_install_file`. The result is the status code and the final
`*errorstr`. -/
def config_write_install_file {σ : Type} (E : Caml σ) (fname : String)
    (errorstr : Option String) (w : World σ) : Ret σ (Int × Option String) :=
  let retval := STATUS_OK
  let w := log_api_call SEV_DEBUG "calling OCAML write_install_file" w
  match caml_callback_exn (E.config_write_install_file fname) w with
  | (w, .exception ex) =>
    let (w, errorstr) :=
      if ex.ctor = E.config_sys_error then
        (w, some ex.arg)
      else
        let w := printf ("Unknown Exception raised in caml_init: "
          ++ E.caml_format_exception ex ++ "\n") w
        (w, some (E.caml_format_exception ex))
    let retval := STATUS_ERROR
    let w := log_api_call SEV_DEBUG "Returning from write_install_file" w
    (w, .ok (retval, errorstr))
  | (w, .value _) =>
    let w := log_api_call SEV_DEBUG "Returning from write_install_file" w
    (w, .ok (retval, errorstr))

/-- Embeds `c_system_print_string`. -/
def c_system_print_string {σ : Type} (_msg : String) (w : World σ) : World σ :=
  printf _msg w

/-- Embeds `c_system_print_endline`. -/
def c_system_print_endline {σ : Type} (_msg : String) (w : World σ) : World σ :=
  printf (_msg ++ "\n") w

/-- Embeds `c_system_print_newline`. -/
def c_system_print_newline {σ : Type} (w : World σ) : World σ :=
  printf "\n" w


/-! ## Reading the closures' outcomes -/

/-- The state in which `config_init` runs the closure: after its three entry log lines. -/
def config_init_entry {σ : Type} (rdeffname rinstfname : String) (w : World σ) : World σ :=
  log_api_call SEV_DEBUG rinstfname (log_api_call SEV_DEBUG rdeffname
    (log_api_call SEV_DEBUG "entering CAML config_init. Params are:" w))

/-- The outcome of the engine's `config_init` closure inside the C `config_init`. -/
def config_init_outcome {σ : Type} (E : Caml σ) (rdeffname rinstfname : String)
    (w : World σ) : CamlResult Unit :=
  (E.config_init rdeffname rinstfname (config_init_entry rdeffname rinstfname w)).2

def demoOutcome {α : Type} (v : α) : Closure Nat α := fun w =>
  match w.engine with
  | 0 => (w, .value v)
  | 1 => (w, .exception ⟨0, "bad document"⟩)
  | 2 => (w, .exception ⟨1, "bad document"⟩)
  | _ => (w, .exception ⟨2, ""⟩)

def demoCaml : Caml Nat where
  config_user_error := 0
  config_sys_error := 1
  caml_format_exception := fun ex => if ex.ctor = 2 then "Not_found" else "Exception"
  config_init := fun _ _ => demoOutcome ()
  config_has_next := demoOutcome true
  config_has_prev := demoOutcome true
  config_next := demoOutcome true
  config_prev := demoOutcome true
  config_reinit := demoOutcome ()
  config_get_config_port_types := demoOutcome "p1:int"
  config_get_config_ports := demoOutcome "p1:5"
  config_set_config_ports := fun _ => demoOutcome ()
  config_set_ports := fun _ _ => demoOutcome ()
  config_set_ports_of_current := demoOutcome ()
  config_get_current_resource := demoOutcome "db"
  config_get_resource := fun _ _ => demoOutcome "db"
  config_write_install_file := fun _ => demoOutcome ()

/-- A process with the engine in state `n`, no logger registered, nothing printed yet. -/
def demoWorld (n : Nat) : World Nat := ⟨n, none, "", []⟩

end Cfunctions

namespace Camlmsat

/-! ## The solver library's types, as far as the stubs use them

`camlmsat_stubs.C` includes the solver through `Solver.h`; that header is not among the source
files. `Lit` and `vec` below follow the library's `SolverTypes.h` and `Vec.h`; the solver
object itself is a parameter. -/

/-- A C `int` result brought back into the 32-bit range (two's complement). -/
def wrap32 (v : Int) : Int := (v + 2 ^ 31) % 2 ^ 32 - 2 ^ 31

/-- Embeds `Int_val(v)`: the OCaml integer cast to a C `int`. -/
def Int_val (v : Int) : Int := wrap32 v

/-- Embeds `abs(val)` on C `int`s. -/
def abs (val : Int) : Int := wrap32 (if val < 0 then -val else val)

/-- Embeds `var_Undef`. -/
def var_Undef : Int := -1

/-- A literal: the library's `class Lit`, one `int x` holding `2*var + sign`. -/
structure Lit where
  x : Int
deriving DecidableEq, Repr

/-- Embeds `Lit()`, the default constructor: `x = 2*var_Undef` (the library's `lit_Undef`). -/
def Lit.undef : Lit := ⟨2 * var_Undef⟩

/-- Embeds `Lit(var)`: `x = var + var`, sign off. -/
def Lit.ofVar (var : Int) : Lit := ⟨wrap32 (var + var)⟩

/-- Embeds `~p`: `x ^ 1`, the lowest bit flipped. -/
def Lit.not (p : Lit) : Lit := ⟨if p.x % 2 = 0 then p.x + 1 else p.x - 1⟩

/-- Embeds `var(p)`: `x >> 1`. -/
def var (p : Lit) : Int := p.x / 2

/-- Embeds `sign(p)`: `x & 1`. -/
def sign (p : Lit) : Bool := p.x % 2 = 1

/-- Embeds `vec<Lit> lits(size)`. In `Vec.h` the constructor `vec(int size)` starts from the
empty vector and calls `growTo(size)`, which constructs default elements up to length `size`:
the vector has `size` elements, each `Lit()`, before anything is pushed. -/
def vec.ofSize (size : Nat) : List Lit := List.replicate size Lit.undef

/-- Embeds `lits.push(elem)`: the element is stored at index `sz`, after the last one, and
`sz` grows by one. -/
def vec.push (lits : List Lit) (elem : Lit) : List Lit := lits ++ [elem]

/-- The `Solver` object behind the stubs: the member functions the stubs call. `model s i`
is `toInt(s->model[i])`. -/
structure SolverLib (S : Type) where
  new : S
  nVars : S → Int
  newVar : S → S
  addClause : S → List Lit → S × Bool
  okay : S → Bool
  solve : S → S × Bool
  model : S → Nat → Int

/-- The OCaml exceptions the stubs raise: `caml_invalid_argument` and `caml_failwith`. -/
inductive StubExn where
  | Invalid_argument (msg : String)
  | Failure (msg : String)
deriving DecidableEq, Repr

/-- Embeds `Val_true` and `Val_false` as the machine words `printf` shows. -/
def Val_bool (b : Bool) : Int := if b then 3 else 1

/-! ## The stubs

The handle `solver_wrapper` is the custom block's one field, `Solver_val(v)`: `none` is the
null pointer. A stub returns the handle's new content and either its result or the exception
it raised. -/

/-- Embeds `create_solver`. -/
def create_solver {S : Type} (L : SolverLib S) : Except StubExn (Option S) :=
  let ptr : Option S := some L.new
  match ptr with
  | none => .error (.Failure "Unable to allocate solver")
  | some s => .ok (some s)

/-- Embeds `free_solver`. -/
def free_solver {S : Type} (solver_wrapper : Option S) : Option S × Except StubExn Unit :=
  match solver_wrapper with
  | none => (none, .error (.Invalid_argument "solver already deallocated"))
  | some _ => (none, .ok ())

/-- One round of the loop of `add_clause`, on the array element `field`. -/
def add_clause_step {S : Type} (L : SolverLib S) (acc : S × List Lit) (field : Int) :
    S × List Lit :=
  let val := Int_val field
  let var := wrap32 (abs val - 1)
  let maxVar := wrap32 (L.nVars acc.1 - 1)
  let s := if var > maxVar then L.newVar^[(wrap32 (var - maxVar)).toNat] acc.1 else acc.1
  let input := if val < 0 then Lit.not (Lit.ofVar var) else Lit.ofVar var
  (s, vec.push acc.2 input)

/-- The solver and the vector `lits` at the call `s->addClause(lits)` of `add_clause`. -/
def add_clause_args {S : Type} (L : SolverLib S) (s : S) (int_array_block : List Int) :
    S × List Lit :=
  let size := int_array_block.length
  let lits := vec.ofSize size
  int_array_block.foldl (add_clause_step L) (s, lits)

/-- Embeds `add_clause`. -/
def add_clause {S : Type} (L : SolverLib S) (solver_wrapper : Option S)
    (int_array_block : List Int) : Option S × Except StubExn Bool :=
  match solver_wrapper with
  | none => (none, .error (.Invalid_argument "solver already deallocated"))
  | some s =>
    let args := add_clause_args L s int_array_block
    let r := L.addClause args.1 args.2
    (some r.1, .ok r.2)

/-- Embeds `solve`. -/
def solve {S : Type} (L : SolverLib S) (solver_wrapper : Option S) :
    Option S × Except StubExn Bool :=
  match solver_wrapper with
  | none => (none, .error (.Invalid_argument "solver already deallocated"))
  | some s =>
    let ret := L.okay s
    if ret then
      let r := L.solve s
      (some r.1, .ok r.2)
    else (some s, .ok false)

/-- The line `get_model` prints for index `i`. -/
def get_model_line (i : Nat) (intval : Int) : String :=
  "model index: " ++ toString i ++ ", value: " ++ toString intval ++ " ocamlval = "
    ++ toString (Val_bool (decide (intval > 0))) ++ "\n"

/-- Embeds `get_model`: the array of booleans returned, and the text printed on the way. -/
def get_model {S : Type} (L : SolverLib S) (solver_wrapper : Option S) :
    Option S × Except StubExn (List Bool × String) :=
  match solver_wrapper with
  | none => (none, .error (.Invalid_argument "solver already deallocated"))
  | some s =>
    let nVars := (L.nVars s).toNat
    let array_block := (List.range nVars).map (fun i => decide (L.model s i > 0))
    let printed := (List.range nVars).foldl
      (fun out i => out ++ get_model_line i (L.model s i)) ""
    (some s, .ok (array_block, printed))

/-! ## Sequences of calls on one handle -/

/-- A call of one of the four stubs that take a solver handle. -/
inductive Call where
  | free_solver
  | add_clause (int_array_block : List Int)
  | solve
  | get_model
deriving DecidableEq, Repr

/-- The exception a stub raised, if it raised one. -/
def raised {α : Type} : Except StubExn α → Option StubExn
  | .ok _ => none
  | .error e => some e

/-- One call on the handle: the handle's content afterwards and what the stub raised. -/
def Call.run {S : Type} (L : SolverLib S) (h : Option S) : Call → Option S × Option StubExn
  | .free_solver => ((Camlmsat.free_solver h).1, raised (Camlmsat.free_solver h).2)
  | .add_clause int_array_block =>
    ((Camlmsat.add_clause L h int_array_block).1,
      raised (Camlmsat.add_clause L h int_array_block).2)
  | .solve => ((Camlmsat.solve L h).1, raised (Camlmsat.solve L h).2)
  | .get_model => ((Camlmsat.get_model L h).1, raised (Camlmsat.get_model L h).2)

/-- Calls made one after the other on the same handle: the handle's final content and what
each call raised, in order. -/
def runCalls {S : Type} (L : SolverLib S) (h : Option S) : List Call →
    Option S × List (Option StubExn)
  | [] => (h, [])
  | c :: cs => ((runCalls L (c.run L h).1 cs).1, (c.run L h).2 :: (runCalls L (c.run L h).1 cs).2)

/-! ## What the interface of `add_clause` promises -/

/-- The literal for the OCaml integer `v`: the positive literal of variable `|v| - 1` when
`v > 0`, the negated literal of that variable when `v < 0`. -/
def lit (v : Int) : Lit :=
  if v > 0 then Lit.ofVar (|v| - 1) else Lit.not (Lit.ofVar (|v| - 1))

/-! ## A recording solver

It keeps the number of declared variables and every clause handed to `addClause`, oldest
first; `addClause` answers whether the clause is non-empty. -/

structure RecSolver where
  vars : Nat
  clauses : List (List Lit)
deriving DecidableEq, Repr

def recLib : SolverLib RecSolver where
  new := ⟨0, []⟩
  nVars := fun s => s.vars
  newVar := fun s => { s with vars := s.vars + 1 }
  addClause := fun s ps => ({ s with clauses := s.clauses ++ [ps] }, !ps.isEmpty)
  okay := fun _ => true
  solve := fun s => (s, true)
  model := fun _ _ => 1

end Camlmsat

namespace Cursor

/-! ## The engine's cursor

The engine that implements the cursor is not among the source files: `config_has_next` and
`config_next` only forward to it. -/

end Cursor

namespace Cfunctions

/-! ## Status codes and error strings -/

/-- C5, as stated, fails: a user error and a system error with the same message give the same
status code and the same error string. -/
theorem config_init_user_sys_same_pair :
    config_init_outcome demoCaml "rdef" "rinst" (demoWorld 1)
        = .exception ⟨demoCaml.config_user_error, "bad document"⟩ ∧
      config_init_outcome demoCaml "rdef" "rinst" (demoWorld 2)
        = .exception ⟨demoCaml.config_sys_error, "bad document"⟩ ∧
      (config_init demoCaml "rdef" "rinst" none (demoWorld 1)).2
        = (config_init demoCaml "rdef" "rinst" none (demoWorld 2)).2 :=
  ⟨rfl, rfl, rfl⟩

/-- C5, amended. `config_init` returns the same pair for the two kinds: when the engine raises
the registered user error with message `m`, and when it raises the registered system error
with message `m`, the status code is `STATUS_ERROR` and `*errorstr` is `m`. -/
theorem config_init_collapses_taxonomy {σ : Type} (E : Caml σ)
    (r1 i1 r2 i2 : String) (e1 e2 : Option String) (w1 w2 : World σ) (m : String)
    (hu : config_init_outcome E r1 i1 w1 = .exception ⟨E.config_user_error, m⟩)
    (hs : config_init_outcome E r2 i2 w2 = .exception ⟨E.config_sys_error, m⟩) :
    (config_init E r1 i1 e1 w1).2 = .ok (STATUS_ERROR, some m) ∧
    (config_init E r2 i2 e2 w2).2 = .ok (STATUS_ERROR, some m) := by
  constructor
  · revert hu
    simp only [config_init, caml_callback_exn, config_init_outcome, config_init_entry]
    generalize E.config_init r1 i1 _ = r
    rcases r with ⟨w3, v | ex⟩
    · intro h
      cases h
    · intro h
      cases h
      simp
  · revert hs
    simp only [config_init, caml_callback_exn, config_init_outcome, config_init_entry]
    generalize E.config_init r2 i2 _ = r
    rcases r with ⟨w3, v | ex⟩
    · intro h
      cases h
    · intro h
      cases h
      by_cases hc : E.config_sys_error = E.config_user_error
      · simp [hc]
      · simp [hc]

/-- Witness of C5 amended on the concrete engine. -/
theorem config_init_collapses_taxonomy_witness :
    (config_init demoCaml "rdef" "rinst" none (demoWorld 1)).2
        = .ok (STATUS_ERROR, some "bad document") ∧
      (config_init demoCaml "rdef" "rinst" none (demoWorld 2)).2
        = .ok (STATUS_ERROR, some "bad document") :=
  config_init_collapses_taxonomy demoCaml "rdef" "rinst" "rdef" "rinst" none none
    (demoWorld 1) (demoWorld 2) "bad document" rfl rfl

/-! ## Logging -/

end Cfunctions

namespace Camlmsat

/-! ## The solver handle -/

/-- On the null handle every call raises `Invalid_argument` and leaves the handle null. -/
theorem run_on_null {S : Type} (L : SolverLib S) (c : Call) :
    c.run L none = (none, some (.Invalid_argument "solver already deallocated")) := by
  cases c <;> rfl

/-- On a live handle no call raises, and every call but `free_solver` keeps it live. -/
theorem run_on_live {S : Type} (L : SolverLib S) (s : S) (c : Call) :
    (c.run L (some s)).2 = none ∧
      (c ≠ .free_solver → ∃ s1, (c.run L (some s)).1 = some s1) := by
  cases c with
  | free_solver => exact ⟨rfl, fun h => absurd rfl h⟩
  | add_clause arr => exact ⟨rfl, fun _ => ⟨_, rfl⟩⟩
  | solve =>
    simp only [Call.run, solve]
    by_cases hok : L.okay s = true
    · rw [if_pos hok]
      exact ⟨rfl, fun _ => ⟨_, rfl⟩⟩
    · rw [if_neg hok]
      exact ⟨rfl, fun _ => ⟨_, rfl⟩⟩
  | get_model => exact ⟨rfl, fun _ => ⟨_, rfl⟩⟩

theorem runCalls_on_null {S : Type} (L : SolverLib S) (cs : List Call) :
    runCalls L (none : Option S) cs
      = (none, cs.map (fun _ => some (.Invalid_argument "solver already deallocated"))) := by
  induction cs with
  | nil => rfl
  | cons c cs ih => simp [runCalls, run_on_null, ih]

theorem runCalls_on_live {S : Type} (L : SolverLib S) (cs : List Call)
    (hcs : ∀ c ∈ cs, c ≠ .free_solver) :
    ∀ s : S, ∃ s1, (runCalls L (some s) cs).1 = some s1 := by
  induction cs with
  | nil => intro s; exact ⟨s, rfl⟩
  | cons c cs ih =>
    intro s
    obtain ⟨s1, hs1⟩ := (run_on_live L s c).2 (hcs c (List.mem_cons_self c cs))
    obtain ⟨s2, hs2⟩ := ih (fun c1 h1 => hcs c1 (List.mem_cons_of_mem c h1)) s1
    exact ⟨s2, by simp only [runCalls, hs1, hs2]⟩

/-- C10. Once `free_solver` has succeeded on a handle, the handle is null, and every later
`free_solver`, `add_clause`, `solve` or `get_model` on it, through any sequence of calls,
raises `Invalid_argument` with the text `solver already deallocated` and leaves the handle
null, reaching no solver. `create_solver` returns a live handle, and after any sequence of
calls on it that does not free it, the handle is still live and none of the four stubs raises
on it. -/
theorem use_after_free_guard {S : Type} (L : SolverLib S) :
    (∀ h h1 : Option S, free_solver h = (h1, .ok ()) →
      h1 = none ∧
      (∀ int_array_block,
        free_solver h1 = (h1, .error (.Invalid_argument "solver already deallocated")) ∧
        add_clause L h1 int_array_block
          = (h1, .error (.Invalid_argument "solver already deallocated")) ∧
        solve L h1 = (h1, .error (.Invalid_argument "solver already deallocated")) ∧
        get_model L h1 = (h1, .error (.Invalid_argument "solver already deallocated"))) ∧
      (∀ cs, runCalls L h1 cs
        = (h1, cs.map (fun _ => some (.Invalid_argument "solver already deallocated"))))) ∧
    (∀ s : S, free_solver (some s) = (none, .ok ())) ∧
    (∃ s0, create_solver L = .ok (some s0)) ∧
    (∀ h0, create_solver L = .ok h0 → ∀ cs, (∀ c ∈ cs, c ≠ Call.free_solver) →
      ∃ s, (runCalls L h0 cs).1 = some s ∧
        (∀ int_array_block,
          raised (free_solver (some s)).2 = none ∧
          raised (add_clause L (some s) int_array_block).2 = none ∧
          raised (solve L (some s)).2 = none ∧
          raised (get_model L (some s)).2 = none)) := by
  refine ⟨?_, fun _ => rfl, ⟨L.new, rfl⟩, ?_⟩
  · intro h h1 hfree
    cases h with
    | none => simp [free_solver] at hfree
    | some s =>
      simp only [free_solver, Prod.mk.injEq] at hfree
      rw [← hfree.1]
      exact ⟨rfl, fun _ => ⟨rfl, rfl, rfl, rfl⟩, runCalls_on_null L⟩
  · intro h0 hcreate cs hcs
    have h0eq : h0 = some L.new := by
      simp only [create_solver, Except.ok.injEq] at hcreate
      exact hcreate.symm
    obtain ⟨s, hs⟩ := runCalls_on_live L cs hcs L.new
    refine ⟨s, by rw [h0eq, hs], fun arr => ?_⟩
    exact ⟨(run_on_live L s .free_solver).1, (run_on_live L s (.add_clause arr)).1,
      (run_on_live L s .solve).1, (run_on_live L s .get_model).1⟩

/-! ## The clause handed to the solver -/

/-- C8, the code at the failing input. On a new solver and the array `[1]`, the vector handed
to `addClause` holds two literals, the default-constructed `lit_Undef` and then the literal of
`1`, where the interface promises the one literal of `1`; the boolean returned is the one
`addClause` returned. -/
theorem add_clause_hands_default_literals :
    add_clause recLib (some recLib.new) [1]
        = (some ⟨1, [[Lit.undef, lit 1]]⟩, .ok true) ∧
      (add_clause_args recLib recLib.new [1]).2 = [Lit.undef, lit 1] ∧
      (add_clause_args recLib recLib.new [1]).2 ≠ [lit 1] ∧
      (add_clause recLib (some recLib.new) [1]).2
        = .ok (recLib.addClause (add_clause_args recLib recLib.new [1]).1
            (add_clause_args recLib recLib.new [1]).2).2 := by
  refine ⟨rfl, by decide, by decide, rfl⟩

/-- C9, the code at the failing input. On a new solver and the array `[1]`, `add_clause`
declares one variable, so the solver has `max(0, 1) = 1` variables, but the clause handed to
`addClause` begins with `lit_Undef`, whose variable is `-1`: not every literal of the clause
refers to a declared variable. -/
theorem add_clause_literal_outside_declared_range :
    recLib.nVars (add_clause_args recLib recLib.new [1]).1 = 1 ∧
      Lit.undef ∈ (add_clause_args recLib recLib.new [1]).2 ∧
      var Lit.undef = -1 ∧
      ¬ ∀ p ∈ (add_clause_args recLib recLib.new [1]).2,
          0 ≤ var p ∧ var p < recLib.nVars (add_clause_args recLib recLib.new [1]).1 := by
  refine ⟨by decide, by decide, by decide, by decide⟩

end Camlmsat

namespace Camlmsat

/-! ## `add_clause` on every array -/

theorem wrap32_of_range (v : Int) (h1 : -2 ^ 31 ≤ v) (h2 : v < 2 ^ 31) : wrap32 v = v := by
  unfold wrap32
  omega

theorem step_literal (v : Int) (h0 : v ≠ 0) (h1 : -2 ^ 31 < v) (h2 : v < 2 ^ 31) :
    (if Int_val v < 0 then Lit.not (Lit.ofVar (wrap32 (abs (Int_val v) - 1)))
      else Lit.ofVar (wrap32 (abs (Int_val v) - 1))) = lit v := by
  have hv : Int_val v = v := wrap32_of_range v (by omega) h2
  have habs : abs v = |v| := by
    unfold abs
    by_cases hneg : v < 0
    · rw [if_pos hneg, abs_of_neg hneg]
      exact wrap32_of_range _ (by omega) (by omega)
    · rw [if_neg hneg, abs_of_nonneg (by omega)]
      exact wrap32_of_range _ (by omega) (by omega)
  have hvar : wrap32 (|v| - 1) = |v| - 1 := by
    have : 0 < |v| := abs_pos.mpr h0
    have : |v| < 2 ^ 31 := abs_lt.mpr ⟨by omega, h2⟩
    exact wrap32_of_range _ (by omega) (by omega)
  rw [hv, habs, hvar]
  unfold lit
  by_cases hneg : v < 0
  · rw [if_pos hneg, if_neg (by omega)]
  · rw [if_neg hneg, if_pos (by omega)]

theorem foldl_step_lits {S : Type} (L : SolverLib S) (arr : List Int)
    (h : ∀ v ∈ arr, v ≠ 0 ∧ -2 ^ 31 < v ∧ v < 2 ^ 31) :
    ∀ acc : S × List Lit, (arr.foldl (add_clause_step L) acc).2 = acc.2 ++ arr.map lit := by
  induction arr with
  | nil => intro acc; simp
  | cons v rest ih =>
    intro acc
    have hv := h v (List.mem_cons_self v rest)
    rw [List.foldl_cons, ih (fun u hu => h u (List.mem_cons_of_mem v hu))]
    simp only [add_clause_step, vec.push, step_literal v hv.1 hv.2.1 hv.2.2, List.map_cons,
      List.append_assoc, List.singleton_append]

/-- The clause `add_clause` hands to `addClause`, for every array of non-zero integers in the
C `int` range: as many default-constructed literals as the array has elements, followed by the
literals of the elements, in order. -/
theorem add_clause_clause_shape {S : Type} (L : SolverLib S) (s : S) (arr : List Int)
    (h : ∀ v ∈ arr, v ≠ 0 ∧ -2 ^ 31 < v ∧ v < 2 ^ 31) :
    (add_clause_args L s arr).2 = List.replicate arr.length Lit.undef ++ arr.map lit := by
  simp only [add_clause_args, vec.ofSize, foldl_step_lits L arr h]

/-- The shape of the clause on the recording solver and the array `[3, -2]`. -/
theorem add_clause_clause_shape_witness :
    (add_clause_args recLib recLib.new [3, -2]).2
      = List.replicate [(3 : Int), -2].length Lit.undef ++ [(3 : Int), -2].map lit :=
  add_clause_clause_shape recLib recLib.new [3, -2] (by decide)

theorem nVars_iterate_newVar {S : Type} (L : SolverLib S)
    (hnew : ∀ s, L.nVars (L.newVar s) = L.nVars s + 1) (k : Nat) (s : S) :
    L.nVars (L.newVar^[k] s) = L.nVars s + k := by
  induction k with
  | zero => simp
  | succ k ih =>
    rw [Function.iterate_succ_apply', hnew, ih]
    push_cast
    ring

theorem step_nVars {S : Type} (L : SolverLib S)
    (hnew : ∀ s, L.nVars (L.newVar s) = L.nVars s + 1) (acc : S × List Lit) (v : Int)
    (hn0 : 0 ≤ L.nVars acc.1) (hn1 : L.nVars acc.1 < 2 ^ 31)
    (h0 : v ≠ 0) (h1 : -2 ^ 31 < v) (h2 : v < 2 ^ 31) :
    L.nVars (add_clause_step L acc v).1 = max (L.nVars acc.1) |v| := by
  have hv : Int_val v = v := wrap32_of_range v (by omega) h2
  have hpos : 0 < |v| := abs_pos.mpr h0
  have hlt : |v| < 2 ^ 31 := abs_lt.mpr ⟨by omega, h2⟩
  have habs : abs v = |v| := by
    unfold abs
    by_cases hneg : v < 0
    · rw [if_pos hneg, abs_of_neg hneg]
      exact wrap32_of_range _ (by omega) (by omega)
    · rw [if_neg hneg, abs_of_nonneg (by omega)]
      exact wrap32_of_range _ (by omega) (by omega)
  have hvar : wrap32 (|v| - 1) = |v| - 1 := wrap32_of_range _ (by omega) (by omega)
  have hmax : wrap32 (L.nVars acc.1 - 1) = L.nVars acc.1 - 1 :=
    wrap32_of_range _ (by omega) (by omega)
  simp only [add_clause_step, hv, habs, hvar, hmax]
  by_cases hgt : |v| - 1 > L.nVars acc.1 - 1
  · rw [if_pos hgt, nVars_iterate_newVar L hnew,
      wrap32_of_range _ (by omega) (by omega), Int.toNat_of_nonneg (by omega)]
    rw [max_eq_right (by omega)]
    ring
  · rw [if_neg hgt, max_eq_left (by omega)]

theorem foldl_step_nVars {S : Type} (L : SolverLib S)
    (hnew : ∀ s, L.nVars (L.newVar s) = L.nVars s + 1) (arr : List Int)
    (h : ∀ v ∈ arr, v ≠ 0 ∧ -2 ^ 31 < v ∧ v < 2 ^ 31) :
    ∀ acc : S × List Lit, 0 ≤ L.nVars acc.1 → L.nVars acc.1 < 2 ^ 31 →
      L.nVars (arr.foldl (add_clause_step L) acc).1
        = arr.foldl (fun m v => max m |v|) (L.nVars acc.1) := by
  induction arr with
  | nil => intro acc _ _; simp
  | cons v rest ih =>
    intro acc hn0 hn1
    have hv := h v (List.mem_cons_self v rest)
    have hstep := step_nVars L hnew acc v hn0 hn1 hv.1 hv.2.1 hv.2.2
    have hlt : |v| < 2 ^ 31 := abs_lt.mpr ⟨by omega, hv.2.2⟩
    rw [List.foldl_cons, List.foldl_cons,
      ih (fun u hu => h u (List.mem_cons_of_mem v hu)) _
        (by rw [hstep]; exact le_max_of_le_left hn0)
        (by rw [hstep]; exact max_lt hn1 hlt),
      hstep]

/-- The variables `add_clause` declares, for a solver whose `newVar` adds one variable and
which has `n` variables, `0 ≤ n < 2^31`, and every array of non-zero integers in the C `int`
range: at the call of `addClause` the solver has `max(n, max_i |v_i|)` variables, and it is
the solver it was (no `newVar` ran) when every `|v_i|` is at most `n`. -/
theorem add_clause_declares_variables {S : Type} (L : SolverLib S)
    (hnew : ∀ s, L.nVars (L.newVar s) = L.nVars s + 1) (s : S) (arr : List Int)
    (hn0 : 0 ≤ L.nVars s) (hn1 : L.nVars s < 2 ^ 31)
    (h : ∀ v ∈ arr, v ≠ 0 ∧ -2 ^ 31 < v ∧ v < 2 ^ 31) :
    L.nVars (add_clause_args L s arr).1 = arr.foldl (fun m v => max m |v|) (L.nVars s) ∧
    ((∀ v ∈ arr, |v| ≤ L.nVars s) → (add_clause_args L s arr).1 = s) := by
  constructor
  · exact foldl_step_nVars L hnew arr h (s, vec.ofSize arr.length) hn0 hn1
  · intro hall
    simp only [add_clause_args]
    generalize vec.ofSize arr.length = lits
    induction arr generalizing lits with
    | nil => rfl
    | cons v rest ih =>
      have hv := h v (List.mem_cons_self v rest)
      have hle := hall v (List.mem_cons_self v rest)
      have hvv : Int_val v = v := wrap32_of_range v (by omega) hv.2.2
      have hpos : 0 < |v| := abs_pos.mpr hv.1
      have hlt : |v| < 2 ^ 31 := abs_lt.mpr ⟨by omega, hv.2.2⟩
      have habs : abs v = |v| := by
        unfold abs
        by_cases hneg : v < 0
        · rw [if_pos hneg, abs_of_neg hneg]
          exact wrap32_of_range _ (by omega) (by omega)
        · rw [if_neg hneg, abs_of_nonneg (by omega)]
          exact wrap32_of_range _ (by omega) (by omega)
      have hvar : wrap32 (|v| - 1) = |v| - 1 := wrap32_of_range _ (by omega) (by omega)
      have hmax : wrap32 (L.nVars s - 1) = L.nVars s - 1 :=
        wrap32_of_range _ (by omega) (by omega)
      have hstep : ∀ l, (add_clause_step L (s, l) v).1 = s := by
        intro l
        simp only [add_clause_step, hvv, habs, hvar, hmax]
        rw [if_neg (by omega)]
      rw [List.foldl_cons]
      have hs : add_clause_step L (s, lits) v = (s, (add_clause_step L (s, lits) v).2) :=
        Prod.ext (hstep lits) rfl
      rw [hs]
      exact ih (fun u hu => h u (List.mem_cons_of_mem v hu))
        (fun u hu => hall u (List.mem_cons_of_mem v hu)) _

/-- The variable count on the recording solver with no variable yet and the array
`[3, -2]`. -/
theorem add_clause_declares_variables_witness :
    recLib.nVars (add_clause_args recLib recLib.new [3, -2]).1
        = [(3 : Int), -2].foldl (fun m v => max m |v|) (recLib.nVars recLib.new) ∧
      ((∀ v ∈ [(3 : Int), -2], |v| ≤ recLib.nVars recLib.new) →
        (add_clause_args recLib recLib.new [3, -2]).1 = recLib.new) :=
  add_clause_declares_variables recLib (fun _ => by simp [recLib]) recLib.new [3, -2]
    (by decide) (by decide) (by decide)

end Camlmsat

namespace Cursor

/-! ## The cursor -/

end Cursor
